import Mathlib

/-!
Shallow embedding of firewall_port_tester_py36v1.py (a Python 3.6 firewall
port tester) and proofs about its task generation, port parsing, probe
outcome classification and bounded-concurrency executor.

Machine ints are modelled as Int (Python ints are unbounded), statuses as the
literal strings the program stores, network and clock behaviour as explicit
oracle records passed to the probe functions, and the asyncio worker pool as
a small-step transition relation over an executor state.
-/

/-- Protocol selector as accepted on the command line: tcp, udp or both. -/
inductive Proto where
  | tcp
  | udp
  | both
deriving DecidableEq, Repr

/-- Protocol of one generated task (the third component of the (h, p, prot)
tuples built by make_tasks): tcp or udp only. -/
inductive TProto where
  | tcp
  | udp
deriving DecidableEq, Repr

/-- One probe unit, the (host, port, protocol) tuple appended by make_tasks. -/
structure PTask where
  host : String
  port : Int
  prot : TProto
deriving DecidableEq, Repr

/-- The dict a worker appends to the shared results list:
src, dst, port, proto, status, elapsed.  Elapsed time is an abstract clock
value (Nat ticks) supplied by the oracle, standing for the float seconds. -/
structure ResultRec where
  src : String
  dst : String
  port : Int
  proto : TProto
  status : String
  elapsed : Nat
deriving DecidableEq, Repr

/-- ASCII whitespace, as stripped by str.strip(). -/
def isSpaceCh (c : Char) : Bool :=
  c = ' ' ∨ c = '\t' ∨ c = '\n' ∨ c = '\r'

/-- str.strip() over the characters of a string. -/
def pyStrip (l : List Char) : List Char :=
  ((l.dropWhile isSpaceCh).reverse.dropWhile isSpaceCh).reverse

/-- str.split(sep) for a one-character separator: "".split(sep) is [""],
and consecutive separators yield empty parts, as in Python. -/
def pySplitCh (sep : Char) : List Char → List (List Char)
  | [] => [[]]
  | c :: rest =>
      if c = sep then [] :: pySplitCh sep rest
      else
        match pySplitCh sep rest with
        | [] => [[c]]
        | part :: parts => (c :: part) :: parts

/-- The digits of a decimal numeral read left to right; none when a
non-digit occurs or the numeral is empty. -/
def digitsToNat (l : List Char) : Option Nat :=
  if l = [] then none
  else
    l.foldl
      (fun acc c =>
        match acc with
        | some n => if c.isDigit then some (n * 10 + (c.toNat - '0'.toNat)) else none
        | none => none)
      (some 0)

/-- Python int(s): strip whitespace, optional single sign, decimal digits.
none models a ValueError. -/
def pyInt (l : List Char) : Option Int :=
  match pyStrip l with
  | '-' :: rest => (digitsToNat rest).map (fun n => -(n : Int))
  | '+' :: rest => (digitsToNat rest).map (fun n => (n : Int))
  | t => (digitsToNat t).map (fun n => (n : Int))

/-- Python range(a, b + 1) as a list: a, a+1, ..., b (empty when b < a). -/
def pyRange (a b : Int) : List Int :=
  (List.range (b + 1 - a).toNat).map (fun (i : Nat) => a + (i : Int))

/-- The first-seen deduplication loop of parse_ports:
uniq = [p for p in out if not (p in seen or seen.add(p))]. -/
def dedupFS (seen : List Int) : List Int → List Int
  | [] => []
  | p :: rest => if p ∈ seen then dedupFS seen rest else p :: dedupFS (p :: seen) rest

/-- part.split('-', 1): the text before the first dash paired with
everything after it (later dashes kept). -/
def splitDash : List Char → List Char × List Char
  | [] => ([], [])
  | c :: rest =>
      if c = '-' then ([], rest)
      else
        match splitDash rest with
        | (a, b) => (c :: a, b)

/-- One iteration of the parse_ports loop body: a range part "a-b" expands to
range(int(a), int(b)+1), any other part to [int(part)].  none models the
ValueError int() raises on a malformed number. -/
def parsePart (part : List Char) : Option (List Int) :=
  if part.contains '-' then
    match pyInt (splitDash part).1, pyInt (splitDash part).2 with
    | some ia, some ib => some (pyRange ia ib)
    | _, _ => none
  else (pyInt part).map (fun i => [i])

/-- The out list of parse_ports before deduplication: split on commas, strip,
drop empty parts, expand each part in order. -/
def rawPorts (portspec : String) : Option (List Int) :=
  (((pySplitCh ',' portspec.data).map pyStrip).filter (fun p => p ≠ [])).foldlM
    (fun out part => (parsePart part).map (fun l => out ++ l)) []

/-- parse_ports from the source: expand the spec, then keep the first
occurrence of each port. -/
def parse_ports (portspec : String) : Option (List Int) :=
  (rawPorts portspec).map (dedupFS [])

/-- Index of the first occurrence of x in a list (length of the list when x
is absent); used to state the first-seen-order property. -/
def firstIdx : List Int → Int → Nat
  | [], _ => 0
  | p :: rest, x => if x = p then 0 else firstIdx rest x + 1

/-- make_tasks from the source: the nested host-major, port-minor loop, with
a tcp task appended before the udp task for proto both. -/
def make_tasks (hosts : List String) (ports : List Int) (proto : Proto) : List PTask :=
  hosts.foldl
    (fun tasks h =>
      ports.foldl
        (fun tasks p =>
          let tasks :=
            if proto = Proto.tcp ∨ proto = Proto.both then tasks ++ [⟨h, p, TProto.tcp⟩]
            else tasks
          if proto = Proto.udp ∨ proto = Proto.both then tasks ++ [⟨h, p, TProto.udp⟩]
          else tasks)
        tasks)
    []

/-- The tasks one (host, port) pair contributes, used to state what
make_tasks produces. -/
def taskRow (proto : Proto) (h : String) (p : Int) : List PTask :=
  (if proto = Proto.tcp ∨ proto = Proto.both then [⟨h, p, TProto.tcp⟩] else []) ++
    (if proto = Proto.udp ∨ proto = Proto.both then [⟨h, p, TProto.udp⟩] else [])

/-- validate_hosts from the source: strip each entry, skip empty ones, and
append the entry whether or not ipaddress.ip_address accepts it (both the
try branch and the ValueError branch append).  The ip_address test is
abstracted as an arbitrary boolean predicate. -/
def validate_hosts (isIP : String → Bool) (hosts : List String) : List String :=
  hosts.foldl
    (fun out h =>
      let h := h.trim
      if h = "" then out
      else if isIP h then out ++ [h] else out ++ [h])
    []

/-- The worker count of run_checks:
range(min(concurrency, max(1, len(tasks_tuples)))). -/
def numWorkers (concurrency : Int) (tasks : List PTask) : Nat :=
  (min concurrency (max 1 (tasks.length : Int))).toNat

/-- resolve_host: socket.gethostbyname delegated to an oracle value; on
failure (none) the original host string is returned. -/
def resolve_host (resolved : Option String) (host : String) : String :=
  match resolved with
  | some ip => ip
  | none => host

/-- local_ip_for_target: the best-effort UDP-connect + getsockname heuristic,
its outcome delegated to an oracle value; on failure it returns the literal
string "unknown". -/
def local_ip_for_target (heur : Option String) : String :=
  match heur with
  | some ip => ip
  | none => "unknown"

/-- Python truthiness of "bind_ip or fallback": None and the empty string
both fall through to the fallback. -/
def pyOr (a : Option String) (b : String) : String :=
  match a with
  | none => b
  | some s => if s = "" then b else s

/-- What the awaited loop.sock_connect of tcp_check does, as seen by the
except clauses of tcp_check: it completes, or raises asyncio.TimeoutError,
ConnectionRefusedError, an OSError, or some other exception. -/
inductive ConnectResult where
  | success
  | timedOut
  | refused
  | osError (e : String)
  | otherExc (e : String)
deriving DecidableEq, Repr

/-- Network oracle for one tcp_check call: the gethostbyname result, the
connect outcome, the getsockname result on the established socket (none
models the inner except), the local_ip_for_target heuristic result, and the
clock reading for the elapsed field. -/
structure TCPNet where
  resolved : Option String
  connect : ConnectResult
  sockname : Option String
  heur : Option String
  ticks : Nat
deriving DecidableEq, Repr

/-- tcp_check from the source, as the (src_ip, dst_ip, port, status, elapsed)
tuple it returns.  Binding failure is silently swallowed by the source (try
bind except pass), so the oracle does not even record it.  Note the
timeout, refused and error paths never consult getsockname: they go straight
to bind_ip or local_ip_for_target(dst_ip). -/
def tcp_check (net : TCPNet) (host : String) (port : Int) (bind_ip : Option String) :
    String × String × Int × String × Nat :=
  let dst_ip := resolve_host net.resolved host
  match net.connect with
  | ConnectResult.success =>
      let src_ip :=
        match net.sockname with
        | some ip => ip
        | none => pyOr bind_ip (local_ip_for_target net.heur)
      (src_ip, dst_ip, port, "open", net.ticks)
  | ConnectResult.timedOut =>
      (pyOr bind_ip (local_ip_for_target net.heur), dst_ip, port, "timeout", net.ticks)
  | ConnectResult.refused =>
      (pyOr bind_ip (local_ip_for_target net.heur), dst_ip, port, "closed", net.ticks)
  | ConnectResult.osError e =>
      (pyOr bind_ip (local_ip_for_target net.heur), dst_ip, port, "error:" ++ e, net.ticks)
  | ConnectResult.otherExc e =>
      (pyOr bind_ip (local_ip_for_target net.heur), dst_ip, port, "error:" ++ e, net.ticks)

/-- What sock.recv of udp_probe_sync does, as seen by its except clauses:
data arrives, socket.timeout fires, or an OSError is raised. -/
inductive RecvResult where
  | gotData
  | timedOut
  | osError (e : String)
deriving DecidableEq, Repr

/-- Network oracle for one udp_probe_sync call.  connectErr and sendErr model
exceptions raised by sock.connect and sock.send: in the source these two
calls are NOT wrapped in a try/except, so a some value here makes the
function raise instead of returning a tuple. -/
structure UDPNet where
  resolved : Option String
  connectErr : Option String
  sockname : Option String
  heur : Option String
  sendErr : Option String
  recv : RecvResult
  ticks : Nat
deriving DecidableEq, Repr

/-- udp_probe_sync from the source.  Except.error models an exception
escaping the function (its only try/finally merely closes the socket and
re-raises).  Only the recv call sits inside a try/except, so only recv
failures are folded into the status string. -/
def udp_probe_sync (net : UDPNet) (host : String) (port : Int) (bind_ip : Option String) :
    Except String (String × String × Int × String × Nat) :=
  let dst_ip := resolve_host net.resolved host
  match net.connectErr with
  | some e => Except.error e
  | none =>
      let src_ip :=
        match net.sockname with
        | some ip => ip
        | none => pyOr bind_ip (local_ip_for_target net.heur)
      match net.sendErr with
      | some e => Except.error e
      | none =>
          let status :=
            match net.recv with
            | RecvResult.gotData => "open"
            | RecvResult.timedOut => "no-response"
            | RecvResult.osError e => "error:" ++ e
          Except.ok (src_ip, dst_ip, port, status, net.ticks)

/-- Per-task network oracle: the behaviour each probe call observes for a
given (host, port). -/
structure Net where
  tcp : String → Int → TCPNet
  udp : String → Int → UDPNet

/-- The body of one worker iteration after a task is claimed: dispatch to
tcp_check or udp_check (udp_probe_sync on the thread pool) and build the
results dict.  Except.error models the exception of a probe escaping the
worker coroutine, which has no try/except of its own. -/
def worker_probe (net : Net) (bind_ip : Option String) (t : PTask) :
    Except String ResultRec :=
  match t.prot with
  | TProto.tcp =>
      match tcp_check (net.tcp t.host t.port) t.host t.port bind_ip with
      | (src, dst, prt, status, elapsed) =>
          Except.ok ⟨src, dst, prt, TProto.tcp, status, elapsed⟩
  | TProto.udp =>
      match udp_probe_sync (net.udp t.host t.port) t.host t.port bind_ip with
      | Except.ok (src, dst, prt, status, elapsed) =>
          Except.ok ⟨src, dst, prt, TProto.udp, status, elapsed⟩
      | Except.error e => Except.error e

/-- A worker's probe completes with a record (no exception escapes). -/
def probeOk (net : Net) (bind_ip : Option String) (t : PTask) : Prop :=
  ∃ r, worker_probe net bind_ip t = Except.ok r

/-- The record a task's probe produces when it completes (a default record
when the probe raises; okRec is only ever read for tasks whose probe
completed). -/
def okRec (net : Net) (bind_ip : Option String) (t : PTask) : ResultRec :=
  match worker_probe net bind_ip t with
  | Except.ok r => r
  | Except.error _ => ⟨"", "", 0, TProto.tcp, "", 0⟩

/-- State of one asyncio worker coroutine: looping and about to call
get_nowait, holding a claimed task while awaiting its probe, returned
cleanly after QueueEmpty, or died with an uncaught probe exception. -/
inductive WStatus where
  | running
  | probing (t : PTask)
  | exited
  | failed (t : PTask) (e : String)
deriving DecidableEq, Repr

/-- Executor state: the task queue filled before workers start, the worker
coroutines, and the shared results list (append-only, completion order). -/
structure ExecState where
  queue : List PTask
  workers : List WStatus
  results : List ResultRec
deriving DecidableEq, Repr

/-- The initial state of run_checks after the queue is filled and the
workers are created: min(concurrency, max(1, len(tasks))) workers. -/
def initState (tasks : List PTask) (concurrency : Int) : ExecState :=
  ⟨tasks, List.replicate (numWorkers concurrency tasks) WStatus.running, []⟩

/-- run_checks up to the point where the workers are about to run: the queue
holds make_tasks(hosts, ports, proto). -/
def run_checks_init (hosts : List String) (ports : List Int) (proto : Proto)
    (concurrency : Int) : ExecState :=
  initState (make_tasks hosts ports proto) concurrency

/-- One scheduler step of the executor, at any worker position:
a running worker atomically claims the queue head (get_nowait); a probing
worker finishes and appends its record; a probing worker's probe raises and
the coroutine dies; a running worker hits QueueEmpty and returns. -/
inductive Step (net : Net) (bind_ip : Option String) : ExecState → ExecState → Prop where
  | claimTask (t : PTask) (rest : List PTask) (l₁ l₂ : List WStatus)
      (res : List ResultRec) :
      Step net bind_ip ⟨t :: rest, l₁ ++ WStatus.running :: l₂, res⟩
        ⟨rest, l₁ ++ WStatus.probing t :: l₂, res⟩
  | finishOk (t : PTask) (r : ResultRec) (q : List PTask) (l₁ l₂ : List WStatus)
      (res : List ResultRec) (h : worker_probe net bind_ip t = Except.ok r) :
      Step net bind_ip ⟨q, l₁ ++ WStatus.probing t :: l₂, res⟩
        ⟨q, l₁ ++ WStatus.running :: l₂, res ++ [r]⟩
  | finishErr (t : PTask) (e : String) (q : List PTask) (l₁ l₂ : List WStatus)
      (res : List ResultRec) (h : worker_probe net bind_ip t = Except.error e) :
      Step net bind_ip ⟨q, l₁ ++ WStatus.probing t :: l₂, res⟩
        ⟨q, l₁ ++ WStatus.failed t e :: l₂, res⟩
  | workerExit (l₁ l₂ : List WStatus) (res : List ResultRec) :
      Step net bind_ip ⟨[], l₁ ++ WStatus.running :: l₂, res⟩
        ⟨[], l₁ ++ WStatus.exited :: l₂, res⟩

/-- All interleavings the asyncio loop can produce. -/
abbrev Reachable (net : Net) (bind_ip : Option String) : ExecState → ExecState → Prop :=
  Relation.ReflTransGen (Step net bind_ip)

/-- Every worker returned cleanly: asyncio.gather succeeds and run_checks
returns the results list. -/
def allDone (s : ExecState) : Prop :=
  ∀ w ∈ s.workers, w = WStatus.exited

/-- The exception asyncio.gather re-raises out of run_checks when a worker
coroutine died (none when no worker failed). -/
def gatherExc (s : ExecState) : Option String :=
  s.workers.findSome? fun w =>
    match w with
    | WStatus.failed _ e => some e
    | _ => none

/-- The tasks currently claimed and being probed. -/
def probingTasks : List WStatus → List PTask
  | [] => []
  | WStatus.probing t :: ws => t :: probingTasks ws
  | WStatus.running :: ws => probingTasks ws
  | WStatus.exited :: ws => probingTasks ws
  | WStatus.failed _ _ :: ws => probingTasks ws

/-- The tasks whose probe raised, killing their worker. -/
def failedTasks : List WStatus → List PTask
  | [] => []
  | WStatus.failed t _ :: ws => t :: failedTasks ws
  | WStatus.running :: ws => failedTasks ws
  | WStatus.exited :: ws => failedTasks ws
  | WStatus.probing _ :: ws => failedTasks ws

/-- Executor invariant: the submitted tasks are exactly the queued tasks,
the claimed tasks in flight, the tasks whose worker died, and the tasks
already recorded (rts); the results list holds exactly the records of rts,
each of whose probes completed.  Once any worker has observed QueueEmpty and
exited, the queue is (and stays) empty. -/
def ExecInv (net : Net) (bind_ip : Option String) (tasks : List PTask) (s : ExecState) : Prop :=
  (∃ rts : List PTask,
      tasks.Perm (s.queue ++ probingTasks s.workers ++ failedTasks s.workers ++ rts) ∧
      s.results = rts.map (okRec net bind_ip) ∧
      ∀ t ∈ rts, probeOk net bind_ip t) ∧
  ((∃ w ∈ s.workers, w = WStatus.exited) → s.queue = [])

/-- A network where every tcp connect is refused and every udp probe times
out waiting for a reply; nothing raises. -/
def netTriv : Net where
  tcp := fun _ _ => ⟨none, ConnectResult.refused, none, none, 0⟩
  udp := fun _ _ => ⟨none, none, none, none, none, RecvResult.timedOut, 0⟩

/-- A single tcp task probing 127.0.0.1 port 1. -/
def t0 : PTask := ⟨"127.0.0.1", 1, TProto.tcp⟩

/-- The record t0's probe produces under netTriv with no bind address. -/
def rec0 : ResultRec := ⟨"unknown", "127.0.0.1", 1, TProto.tcp, "closed", 0⟩

/-- The terminal state of the one-task run of t0 under netTriv. -/
def sFin : ExecState := ⟨[], [WStatus.exited], [rec0]⟩

/-- The error message socket.connect raises for an unresolvable hostname. -/
def gerr : String := "gaierror: Name or service not known"

/-- A network where the udp probe's sock.connect raises at once (the
destination string is an unresolvable hostname, so the connect call's own
address lookup fails). -/
def netBad : Net where
  tcp := fun _ _ => ⟨none, ConnectResult.refused, none, none, 0⟩
  udp := fun _ _ => ⟨none, some gerr, none, none, none, RecvResult.timedOut, 0⟩

/-- The udp task whose probe raises under netBad. -/
def tBad : PTask := ⟨"badhost.invalid", 53, TProto.udp⟩

/-- The stuck state after tBad's worker died on the uncaught exception. -/
def sBad : ExecState := ⟨[], [WStatus.failed tBad gerr], []⟩

/-- The terminal state of a run whose task list was empty: the single
worker hit QueueEmpty at once and returned; no record was produced. -/
def sEmpty : ExecState := ⟨[], [WStatus.exited], []⟩

/-- UDP oracle where no datagram arrives before the deadline. -/
def netU5 : UDPNet := ⟨none, none, some "10.0.0.1", none, none, RecvResult.timedOut, 0⟩

/-- TCP oracle where the connection is refused. -/
def netT6 : TCPNet := ⟨none, ConnectResult.refused, none, none, 0⟩

/-- TCP oracle for the source-address counterexample: connection refused,
getsockname obtainable (192.0.2.7), heuristic local address 198.51.100.9. -/
def netT9 : TCPNet := ⟨none, ConnectResult.refused, some "192.0.2.7", some "198.51.100.9", 0⟩

/-- TCP oracle for the amended source-address chain witness: timeout with a
bind address given. -/
def netT9w : TCPNet := ⟨none, ConnectResult.timedOut, some "192.0.2.7", some "198.51.100.9", 0⟩

theorem dedupFS_not_mem_seen (seen l : List Int) :
    ∀ x ∈ dedupFS seen l, x ∉ seen := by
  induction l generalizing seen with
  | nil => simp [dedupFS]
  | cons p rest ih =>
    intro x hx
    by_cases hp : p ∈ seen
    · rw [dedupFS, if_pos hp] at hx
      exact ih seen x hx
    · rw [dedupFS, if_neg hp] at hx
      rcases List.mem_cons.mp hx with rfl | hx'
      · exact hp
      · intro hxs
        exact (ih (p :: seen) x hx') (List.mem_cons_of_mem _ hxs)

theorem dedupFS_mem (seen l : List Int) (x : Int) :
    x ∈ dedupFS seen l ↔ x ∈ l ∧ x ∉ seen := by
  induction l generalizing seen with
  | nil => simp [dedupFS]
  | cons p rest ih =>
    by_cases hp : p ∈ seen
    · rw [dedupFS, if_pos hp, ih]
      constructor
      · rintro ⟨h1, h2⟩; exact ⟨List.mem_cons_of_mem _ h1, h2⟩
      · rintro ⟨h1, h2⟩
        rcases List.mem_cons.mp h1 with rfl | h1'
        · exact absurd hp h2
        · exact ⟨h1', h2⟩
    · rw [dedupFS, if_neg hp]
      constructor
      · intro hx
        rcases List.mem_cons.mp hx with rfl | hx'
        · exact ⟨List.mem_cons_self _ _, hp⟩
        · rcases (ih (p :: seen)).mp hx' with ⟨h1, h2⟩
          exact ⟨List.mem_cons_of_mem _ h1, fun hs => h2 (List.mem_cons_of_mem _ hs)⟩
      · rintro ⟨h1, h2⟩
        rcases List.mem_cons.mp h1 with rfl | h1'
        · exact List.mem_cons_self _ _
        · by_cases hxp : x = p
          · subst hxp; exact List.mem_cons_self _ _
          · exact List.mem_cons_of_mem _ ((ih (p :: seen)).mpr
              ⟨h1', fun hs => (List.mem_cons.mp hs).elim hxp h2⟩)

theorem dedupFS_nodup (seen l : List Int) : (dedupFS seen l).Nodup := by
  induction l generalizing seen with
  | nil => simp [dedupFS]
  | cons p rest ih =>
    by_cases hp : p ∈ seen
    · rw [dedupFS, if_pos hp]; exact ih seen
    · rw [dedupFS, if_neg hp]
      refine List.Nodup.cons ?_ (ih (p :: seen))
      intro hmem
      exact (dedupFS_not_mem_seen _ _ p hmem) (List.mem_cons_self _ _)

theorem dedupFS_sublist (seen l : List Int) : (dedupFS seen l).Sublist l := by
  induction l generalizing seen with
  | nil => simp [dedupFS]
  | cons p rest ih =>
    by_cases hp : p ∈ seen
    · rw [dedupFS, if_pos hp]; exact (ih seen).cons p
    · rw [dedupFS, if_neg hp]; exact (ih (p :: seen)).cons₂ p

theorem dedupFS_firstIdx_sorted (l : List Int) :
    ∀ seen, (dedupFS seen l).Pairwise (fun x y => firstIdx l x < firstIdx l y) := by
  induction l with
  | nil => intro seen; simp [dedupFS]
  | cons p rest ih =>
    intro seen
    have lift : ∀ d : List Int,
        d.Pairwise (fun x y => firstIdx rest x < firstIdx rest y) →
        (∀ x ∈ d, x ≠ p) →
        d.Pairwise (fun x y => firstIdx (p :: rest) x < firstIdx (p :: rest) y) := by
      intro d hd hne
      refine List.Pairwise.imp_of_mem ?_ hd
      intro a b ha hb hab
      rw [firstIdx, if_neg (hne a ha), firstIdx, if_neg (hne b hb)]
      omega
    by_cases hp : p ∈ seen
    · rw [dedupFS, if_pos hp]
      refine lift _ (ih seen) ?_
      intro x hx
      intro hxp
      exact (dedupFS_not_mem_seen seen rest x hx) (hxp ▸ hp)
    · rw [dedupFS, if_neg hp]
      refine List.Pairwise.cons ?_ ?_
      · intro y hy
        have hyp : y ≠ p := by
          intro h
          exact (dedupFS_not_mem_seen (p :: seen) rest y hy) (h ▸ List.mem_cons_self _ _)
        rw [firstIdx, if_pos rfl, firstIdx, if_neg hyp]
        omega
      · refine lift _ (ih (p :: seen)) ?_
        intro x hx hxp
        exact (dedupFS_not_mem_seen (p :: seen) rest x hx) (hxp ▸ List.mem_cons_self _ _)

theorem pyRange_mem (a b x : Int) : x ∈ pyRange a b ↔ a ≤ x ∧ x ≤ b := by
  unfold pyRange
  constructor
  · intro hx
    rcases List.mem_map.mp hx with ⟨i, hi, rfl⟩
    have hi' : i < (b + 1 - a).toNat := List.mem_range.mp hi
    omega
  · rintro ⟨h1, h2⟩
    refine List.mem_map.mpr ⟨(x - a).toNat, List.mem_range.mpr ?_, ?_⟩ <;> omega

/-- C7: for every port specification string, parse_ports expands each range
"a-b" inclusively (both endpoints included), collapses duplicate ports, and
preserves first-seen order; in particular "9,10-12" parses to exactly
[9, 10, 11, 12]. -/
theorem parse_ports_spec :
    parse_ports "9,10-12" = some [9, 10, 11, 12] ∧
    (∀ a b x : Int, x ∈ pyRange a b ↔ a ≤ x ∧ x ≤ b) ∧
    (∀ s out, parse_ports s = some out →
      ∃ raw, rawPorts s = some raw ∧ out = dedupFS [] raw ∧ out.Nodup ∧
        out.Sublist raw ∧ (∀ x, x ∈ out ↔ x ∈ raw) ∧
        out.Pairwise (fun x y => firstIdx raw x < firstIdx raw y)) := by
  refine ⟨by decide, pyRange_mem, ?_⟩
  intro s out h
  unfold parse_ports at h
  cases hr : rawPorts s with
  | none => rw [hr] at h; exact absurd h (by simp)
  | some raw =>
    rw [hr] at h
    have h2 : dedupFS [] raw = out := by
      have := h
      rw [Option.map_some'] at this
      exact Option.some.inj this
    subst h2
    refine ⟨raw, rfl, rfl, dedupFS_nodup [] raw, dedupFS_sublist [] raw, ?_,
      dedupFS_firstIdx_sorted raw []⟩
    intro x
    rw [dedupFS_mem]
    exact ⟨fun hx => hx.1, fun hx => ⟨hx, List.not_mem_nil x⟩⟩

theorem validate_hosts_go (isIP : String → Bool) :
    ∀ (hosts : List String) (acc : List String),
      hosts.foldl
        (fun out h =>
          let h := h.trim
          if h = "" then out
          else if isIP h then out ++ [h] else out ++ [h])
        acc
      = acc ++ (hosts.map String.trim).filter (fun h => h ≠ "") := by
  intro hosts
  induction hosts with
  | nil => intro acc; simp
  | cons h rest ih =>
    intro acc
    rw [List.foldl_cons, ih]
    by_cases he : h.trim = ""
    · simp [he]
    · simp only [List.map_cons, List.filter_cons]
      rw [if_neg he, ite_self, if_pos (by simpa using he)]
      simp

/-- C10: validate_hosts returns exactly the non-empty stripped entries in
their original order and rejects nothing: the ip_address test (an arbitrary
predicate isIP here) has no influence on the output, so syntactically
invalid hosts pass through unchanged. -/
theorem validate_hosts_passes_everything (isIP : String → Bool) (hosts : List String) :
    validate_hosts isIP hosts = (hosts.map String.trim).filter (fun h => h ≠ "") := by
  unfold validate_hosts
  rw [validate_hosts_go]
  simp

/-- C3 counterexample: with one unit of concurrency and an empty task list,
run_checks starts one worker, not min(concurrency, count(tasks)) = 0. -/
theorem numWorkers_empty_counterexample :
    numWorkers 1 [] = 1 ∧ (min (1 : Int) (([] : List PTask).length : Int)).toNat = 0 ∧
      (initState [] 1).workers = [WStatus.running] := by
  refine ⟨by decide, by decide, ?_⟩
  show List.replicate (numWorkers 1 []) WStatus.running = [WStatus.running]
  rw [show numWorkers 1 [] = 1 from by decide]
  rfl

/-- C3 amended: run_checks starts (min concurrency (max 1 count)).toNat
workers: exactly min(concurrency, count(tasks)) whenever the task sequence
is non-empty, but one worker (not zero) for an empty task sequence with
positive concurrency, and zero workers for non-positive concurrency. -/
theorem numWorkers_formula :
    (∀ (c : Int) (tasks : List PTask), (initState tasks c).workers.length = numWorkers c tasks) ∧
    (∀ (c : Int) (tasks : List PTask), tasks ≠ [] →
      numWorkers c tasks = (min c (tasks.length : Int)).toNat) ∧
    (∀ c : Int, 1 ≤ c → numWorkers c [] = 1) ∧
    (∀ (c : Int) (tasks : List PTask), c ≤ 0 → numWorkers c tasks = 0) := by
  refine ⟨?_, ?_, ?_, ?_⟩
  · intro c tasks
    simp [initState]
  · intro c tasks hne
    have hlen : 0 < tasks.length := List.length_pos.mpr hne
    unfold numWorkers
    rw [max_eq_right (by exact_mod_cast hlen)]
  · intro c hc
    unfold numWorkers
    rw [show (max (1 : Int) ((([] : List PTask).length : Int))) = 1 from by decide,
      min_eq_right hc]
    rfl
  · intro c tasks hc
    unfold numWorkers
    have h1 : min c (max 1 (tasks.length : Int)) ≤ c := min_le_left _ _
    omega

theorem make_tasks_inner (proto : Proto) (h : String) :
    ∀ (ports : List Int) (acc : List PTask),
      ports.foldl
        (fun tasks p =>
          let tasks :=
            if proto = Proto.tcp ∨ proto = Proto.both then tasks ++ [⟨h, p, TProto.tcp⟩]
            else tasks
          if proto = Proto.udp ∨ proto = Proto.both then tasks ++ [⟨h, p, TProto.udp⟩]
          else tasks)
        acc
      = acc ++ ports.flatMap (taskRow proto h) := by
  intro ports
  induction ports with
  | nil => intro acc; simp
  | cons p rest ih =>
    intro acc
    rw [List.foldl_cons, ih, List.flatMap_cons, ← List.append_assoc]
    congr 1
    unfold taskRow
    by_cases h1 : proto = Proto.tcp ∨ proto = Proto.both <;>
      by_cases h2 : proto = Proto.udp ∨ proto = Proto.both <;>
      simp [h1, h2]

theorem make_tasks_outer (proto : Proto) (ports : List Int) :
    ∀ (hosts : List String) (acc : List PTask),
      hosts.foldl
        (fun tasks h =>
          ports.foldl
            (fun tasks p =>
              let tasks :=
                if proto = Proto.tcp ∨ proto = Proto.both then tasks ++ [⟨h, p, TProto.tcp⟩]
                else tasks
              if proto = Proto.udp ∨ proto = Proto.both then tasks ++ [⟨h, p, TProto.udp⟩]
              else tasks)
            tasks)
        acc
      = acc ++ hosts.flatMap (fun h => ports.flatMap (taskRow proto h)) := by
  intro hosts
  induction hosts with
  | nil => intro acc; simp
  | cons h rest ih =>
    intro acc
    rw [List.foldl_cons, make_tasks_inner proto h ports acc, ih, List.flatMap_cons,
      ← List.append_assoc]

theorem make_tasks_eq_bind (hosts : List String) (ports : List Int) (proto : Proto) :
    make_tasks hosts ports proto = hosts.flatMap (fun h => ports.flatMap (taskRow proto h)) := by
  unfold make_tasks
  rw [make_tasks_outer]
  simp

theorem length_bind_const {α β : Type} (l : List α) (f : α → List β) (k : Nat)
    (hf : ∀ a, (f a).length = k) : (l.flatMap f).length = l.length * k := by
  induction l with
  | nil => simp
  | cons a rest ih =>
    rw [List.flatMap_cons, List.length_append, ih, hf, List.length_cons]
    ring

/-- C4: make_tasks returns tasks in host-major, port-minor order; for Both
each (host, port) pair yields two adjacent tasks, TCP then UDP, for a total
of 2 x hosts x ports; for TCP or UDP one task per pair, hosts x ports. -/
theorem make_tasks_spec :
    (∀ (hosts : List String) (ports : List Int),
      make_tasks hosts ports Proto.both =
        hosts.flatMap (fun h => ports.flatMap
          (fun p => [⟨h, p, TProto.tcp⟩, ⟨h, p, TProto.udp⟩]))) ∧
    (∀ (hosts : List String) (ports : List Int),
      make_tasks hosts ports Proto.tcp =
        hosts.flatMap (fun h => ports.flatMap (fun p => [⟨h, p, TProto.tcp⟩]))) ∧
    (∀ (hosts : List String) (ports : List Int),
      make_tasks hosts ports Proto.udp =
        hosts.flatMap (fun h => ports.flatMap (fun p => [⟨h, p, TProto.udp⟩]))) ∧
    (∀ (hosts : List String) (ports : List Int),
      (make_tasks hosts ports Proto.both).length = 2 * hosts.length * ports.length) ∧
    (∀ (hosts : List String) (ports : List Int),
      (make_tasks hosts ports Proto.tcp).length = hosts.length * ports.length) ∧
    (∀ (hosts : List String) (ports : List Int),
      (make_tasks hosts ports Proto.udp).length = hosts.length * ports.length) := by
  have hrowB : taskRow Proto.both =
      fun h p => ([⟨h, p, TProto.tcp⟩, ⟨h, p, TProto.udp⟩] : List PTask) := by
    funext h p
    simp [taskRow]
  have hrowT : taskRow Proto.tcp = fun h p => ([⟨h, p, TProto.tcp⟩] : List PTask) := by
    funext h p
    simp [taskRow]
  have hrowU : taskRow Proto.udp = fun h p => ([⟨h, p, TProto.udp⟩] : List PTask) := by
    funext h p
    simp [taskRow]
  have hboth : ∀ (hosts : List String) (ports : List Int),
      make_tasks hosts ports Proto.both =
        hosts.flatMap (fun h => ports.flatMap
          (fun p => [⟨h, p, TProto.tcp⟩, ⟨h, p, TProto.udp⟩])) := by
    intro hosts ports
    rw [make_tasks_eq_bind, hrowB]
  have htcp : ∀ (hosts : List String) (ports : List Int),
      make_tasks hosts ports Proto.tcp =
        hosts.flatMap (fun h => ports.flatMap (fun p => [⟨h, p, TProto.tcp⟩])) := by
    intro hosts ports
    rw [make_tasks_eq_bind, hrowT]
  have hudp : ∀ (hosts : List String) (ports : List Int),
      make_tasks hosts ports Proto.udp =
        hosts.flatMap (fun h => ports.flatMap (fun p => [⟨h, p, TProto.udp⟩])) := by
    intro hosts ports
    rw [make_tasks_eq_bind, hrowU]
  refine ⟨hboth, htcp, hudp, ?_, ?_, ?_⟩
  · intro hosts ports
    rw [hboth, length_bind_const hosts
      (fun h => ports.flatMap (fun p => ([⟨h, p, TProto.tcp⟩, ⟨h, p, TProto.udp⟩] : List PTask)))
      (ports.length * 2)
      (fun h => length_bind_const ports _ 2 (fun p => rfl))]
    ring
  · intro hosts ports
    rw [htcp, length_bind_const hosts
      (fun h => ports.flatMap (fun p => ([⟨h, p, TProto.tcp⟩] : List PTask)))
      (ports.length * 1)
      (fun h => length_bind_const ports _ 1 (fun p => rfl))]
    ring
  · intro hosts ports
    rw [hudp, length_bind_const hosts
      (fun h => ports.flatMap (fun p => ([⟨h, p, TProto.udp⟩] : List PTask)))
      (ports.length * 1)
      (fun h => length_bind_const ports _ 1 (fun p => rfl))]
    ring

theorem err_data (e : String) :
    ("error:" ++ e).data = 'e' :: 'r' :: 'r' :: 'o' :: 'r' :: ':' :: e.data := by
  cases e with
  | mk d => rfl

theorem err_ne_open (e : String) : ("error:" ++ e) ≠ "open" := by
  intro h
  have hd := congrArg String.data h
  rw [err_data, show ("open" : String).data = ['o', 'p', 'e', 'n'] from rfl] at hd
  injection hd with h1 _
  exact absurd h1 (by decide)

theorem err_ne_closed (e : String) : ("error:" ++ e) ≠ "closed" := by
  intro h
  have hd := congrArg String.data h
  rw [err_data,
    show ("closed" : String).data = ['c', 'l', 'o', 's', 'e', 'd'] from rfl] at hd
  injection hd with h1 _
  exact absurd h1 (by decide)

theorem err_ne_timeout (e : String) : ("error:" ++ e) ≠ "timeout" := by
  intro h
  have hd := congrArg String.data h
  rw [err_data,
    show ("timeout" : String).data = ['t', 'i', 'm', 'e', 'o', 'u', 't'] from rfl] at hd
  injection hd with h1 _
  exact absurd h1 (by decide)

/-- C6: a TCP probe's outcome is exactly one of open (connection established
before the timeout), closed (actively refused), timeout (no response within
the window), or error:detail for any other failure, with the detail string
carried verbatim. -/
theorem tcp_outcome_classification (net : TCPNet) (host : String) (port : Int)
    (bind_ip : Option String) (src dst : String) (prt : Int) (st : String) (el : Nat)
    (h : tcp_check net host port bind_ip = (src, dst, prt, st, el)) :
    (st = "open" ↔ net.connect = ConnectResult.success) ∧
    (net.connect = ConnectResult.timedOut → st = "timeout") ∧
    (net.connect = ConnectResult.refused → st = "closed") ∧
    (∀ e, net.connect = ConnectResult.osError e → st = "error:" ++ e) ∧
    (∀ e, net.connect = ConnectResult.otherExc e → st = "error:" ++ e) ∧
    (st = "open" ∨ st = "closed" ∨ st = "timeout" ∨ ∃ e, st = "error:" ++ e) := by
  rcases net with ⟨res, conn, sn, hr, tk⟩
  cases conn with
  | success =>
    simp only [tcp_check, Prod.mk.injEq] at h
    obtain ⟨-, -, -, hst, -⟩ := h
    subst hst
    exact ⟨by simp, by simp, by simp, by simp, by simp, Or.inl rfl⟩
  | timedOut =>
    simp only [tcp_check, Prod.mk.injEq] at h
    obtain ⟨-, -, -, hst, -⟩ := h
    subst hst
    refine ⟨⟨fun hx => absurd hx (by decide), fun hx => by cases hx⟩,
      fun _ => rfl, by simp, by simp, by simp, Or.inr (Or.inr (Or.inl rfl))⟩
  | refused =>
    simp only [tcp_check, Prod.mk.injEq] at h
    obtain ⟨-, -, -, hst, -⟩ := h
    subst hst
    refine ⟨⟨fun hx => absurd hx (by decide), fun hx => by cases hx⟩,
      by simp, fun _ => rfl, by simp, by simp, Or.inr (Or.inl rfl)⟩
  | osError e0 =>
    simp only [tcp_check, Prod.mk.injEq] at h
    obtain ⟨-, -, -, hst, -⟩ := h
    subst hst
    refine ⟨⟨fun hx => absurd hx (err_ne_open e0), fun hx => by cases hx⟩,
      by simp, by simp, ?_, by simp, Or.inr (Or.inr (Or.inr ⟨e0, rfl⟩))⟩
    intro e he
    injection he with he'
    rw [he']
  | otherExc e0 =>
    simp only [tcp_check, Prod.mk.injEq] at h
    obtain ⟨-, -, -, hst, -⟩ := h
    subst hst
    refine ⟨⟨fun hx => absurd hx (err_ne_open e0), fun hx => by cases hx⟩,
      by simp, by simp, by simp, ?_, Or.inr (Or.inr (Or.inr ⟨e0, rfl⟩))⟩
    intro e he
    injection he with he'
    rw [he']

/-- C6 witness: a refused connection under the concrete oracle netT6 is
classified closed. -/
theorem tcp_outcome_classification_witness :
    ("closed" = "open" ↔ netT6.connect = ConnectResult.success) ∧
    (netT6.connect = ConnectResult.timedOut → "closed" = "timeout") ∧
    (netT6.connect = ConnectResult.refused → "closed" = "closed") ∧
    (∀ e, netT6.connect = ConnectResult.osError e → "closed" = "error:" ++ e) ∧
    (∀ e, netT6.connect = ConnectResult.otherExc e → "closed" = "error:" ++ e) ∧
    ("closed" = "open" ∨ "closed" = "closed" ∨ "closed" = "timeout" ∨
      ∃ e, ("closed" : String) = "error:" ++ e) :=
  tcp_outcome_classification netT6 "10.0.0.2" 22 none "unknown" "10.0.0.2" 22 "closed" 0 rfl

/-- C5: a completed UDP probe's outcome is exactly one of open (a reply
datagram arrived before the deadline), no-response (nothing arrived before
the deadline), or error:detail (the stack reported a delivery failure at the
recv call); the no-data case is never reported closed or timeout. -/
theorem udp_outcome_classification (net : UDPNet) (host : String) (port : Int)
    (bind_ip : Option String) (src dst : String) (prt : Int) (st : String) (el : Nat)
    (h : udp_probe_sync net host port bind_ip = Except.ok (src, dst, prt, st, el)) :
    (st = "open" ↔ net.recv = RecvResult.gotData) ∧
    (net.recv = RecvResult.timedOut → st = "no-response") ∧
    (∀ e, net.recv = RecvResult.osError e → st = "error:" ++ e) ∧
    st ≠ "closed" ∧ st ≠ "timeout" ∧
    (st = "open" ∨ st = "no-response" ∨ ∃ e, st = "error:" ++ e) := by
  rcases net with ⟨res, cErr, sn, hr, sErr, recv, tk⟩
  cases cErr with
  | some e => simp [udp_probe_sync] at h
  | none =>
    cases sErr with
    | some e => simp [udp_probe_sync] at h
    | none =>
      cases recv with
      | gotData =>
        simp only [udp_probe_sync, Except.ok.injEq, Prod.mk.injEq] at h
        obtain ⟨-, -, -, hst, -⟩ := h
        subst hst
        exact ⟨by simp, by simp, by simp, by decide, by decide, Or.inl rfl⟩
      | timedOut =>
        simp only [udp_probe_sync, Except.ok.injEq, Prod.mk.injEq] at h
        obtain ⟨-, -, -, hst, -⟩ := h
        subst hst
        refine ⟨⟨fun hx => absurd hx (by decide), fun hx => by cases hx⟩,
          fun _ => rfl, by simp, by decide, by decide, Or.inr (Or.inl rfl)⟩
      | osError e0 =>
        simp only [udp_probe_sync, Except.ok.injEq, Prod.mk.injEq] at h
        obtain ⟨-, -, -, hst, -⟩ := h
        subst hst
        refine ⟨⟨fun hx => absurd hx (err_ne_open e0), fun hx => by cases hx⟩,
          by simp, ?_, err_ne_closed e0, err_ne_timeout e0,
          Or.inr (Or.inr ⟨e0, rfl⟩)⟩
        intro e he
        injection he with he'
        rw [he']

/-- C5 witness: no datagram before the deadline under the concrete oracle
netU5 is classified no-response. -/
theorem udp_outcome_classification_witness :
    ("no-response" = "open" ↔ netU5.recv = RecvResult.gotData) ∧
    (netU5.recv = RecvResult.timedOut → "no-response" = "no-response") ∧
    (∀ e, netU5.recv = RecvResult.osError e → "no-response" = "error:" ++ e) ∧
    ("no-response" : String) ≠ "closed" ∧ ("no-response" : String) ≠ "timeout" ∧
    ("no-response" = "open" ∨ "no-response" = "no-response" ∨
      ∃ e, ("no-response" : String) = "error:" ++ e) :=
  udp_outcome_classification netU5 "10.0.0.3" 53 none "10.0.0.1" "10.0.0.3" 53
    "no-response" 0 rfl

theorem srcChain_of (bind_ip heur : Option String) (src : String)
    (hsrc : src = pyOr bind_ip (local_ip_for_target heur)) :
    (∀ b, bind_ip = some b → b ≠ "" → src = b) ∧
    ((bind_ip = none ∨ bind_ip = some "") →
      (∀ ip, heur = some ip → src = ip) ∧ (heur = none → src = "unknown")) := by
  subst hsrc
  constructor
  · intro b hb hne
    subst hb
    simp [pyOr, hne]
  · rintro (rfl | rfl)
    · exact ⟨fun ip hip => by subst hip; simp [pyOr, local_ip_for_target],
        fun hh => by subst hh; simp [pyOr, local_ip_for_target]⟩
    · exact ⟨fun ip hip => by subst hip; simp [pyOr, local_ip_for_target],
        fun hh => by subst hh; simp [pyOr, local_ip_for_target]⟩

/-- C9 counterexample: on a refused (closed) TCP probe with no bind address,
the code reports the heuristic UDP-connect address even though the socket's
local endpoint (getsockname) was obtainable: the claimed chain "socket
endpoint first, for every outcome variant" does not hold off the open path. -/
theorem tcp_src_ignores_sockname_counterexample :
    netT9.sockname = some "192.0.2.7" ∧
    tcp_check netT9 "203.0.113.5" 443 none =
      ("198.51.100.9", "203.0.113.5", 443, "closed", 0) ∧
    ("198.51.100.9" : String) ≠ "192.0.2.7" :=
  ⟨rfl, rfl, by decide⟩

/-- C9 amended: the socket's local endpoint is consulted only on the Open
path (where the chain is getsockname, else bindAddress, else heuristic, else
"unknown"); on the Timeout, Closed and Error paths the socket endpoint is
skipped entirely and the source is bindAddress when given and non-empty,
else the heuristic UDP-connect address, else "unknown". -/
theorem tcp_src_fallback_chain (net : TCPNet) (host : String) (port : Int)
    (bind_ip : Option String) (src dst : String) (prt : Int) (st : String) (el : Nat)
    (h : tcp_check net host port bind_ip = (src, dst, prt, st, el)) :
    (net.connect = ConnectResult.success → ∀ ip, net.sockname = some ip → src = ip) ∧
    ((net.connect = ConnectResult.success ∧ net.sockname = none ∨
        net.connect ≠ ConnectResult.success) →
      (∀ b, bind_ip = some b → b ≠ "" → src = b) ∧
      ((bind_ip = none ∨ bind_ip = some "") →
        (∀ ip, net.heur = some ip → src = ip) ∧ (net.heur = none → src = "unknown"))) := by
  rcases net with ⟨res, conn, sn, hr, tk⟩
  cases conn with
  | success =>
    cases sn with
    | some ip0 =>
      simp only [tcp_check, Prod.mk.injEq] at h
      obtain ⟨hsrc, -, -, -, -⟩ := h
      subst hsrc
      constructor
      · intro _ ip hip
        exact Option.some.inj hip
      · rintro (⟨-, hsn⟩ | hne)
        · cases hsn
        · exact absurd rfl hne
    | none =>
      simp only [tcp_check, Prod.mk.injEq] at h
      obtain ⟨hsrc, -, -, -, -⟩ := h
      constructor
      · intro _ ip hip
        cases hip
      · intro _
        exact srcChain_of bind_ip hr _ hsrc.symm
  | timedOut =>
    simp only [tcp_check, Prod.mk.injEq] at h
    obtain ⟨hsrc, -, -, -, -⟩ := h
    exact ⟨fun hx => (nomatch hx), fun _ => srcChain_of bind_ip hr _ hsrc.symm⟩
  | refused =>
    simp only [tcp_check, Prod.mk.injEq] at h
    obtain ⟨hsrc, -, -, -, -⟩ := h
    exact ⟨fun hx => (nomatch hx), fun _ => srcChain_of bind_ip hr _ hsrc.symm⟩
  | osError e0 =>
    simp only [tcp_check, Prod.mk.injEq] at h
    obtain ⟨hsrc, -, -, -, -⟩ := h
    exact ⟨fun hx => (nomatch hx), fun _ => srcChain_of bind_ip hr _ hsrc.symm⟩
  | otherExc e0 =>
    simp only [tcp_check, Prod.mk.injEq] at h
    obtain ⟨hsrc, -, -, -, -⟩ := h
    exact ⟨fun hx => (nomatch hx), fun _ => srcChain_of bind_ip hr _ hsrc.symm⟩

/-- C9 witness: on a timed-out probe with a non-empty bind address under the
concrete oracle netT9w, the source address is the bind address even though
getsockname would have been obtainable. -/
theorem tcp_src_fallback_chain_witness :
    (netT9w.connect = ConnectResult.success →
      ∀ ip, netT9w.sockname = some ip → "10.1.1.1" = ip) ∧
    ((netT9w.connect = ConnectResult.success ∧ netT9w.sockname = none ∨
        netT9w.connect ≠ ConnectResult.success) →
      (∀ b, (some "10.1.1.1" : Option String) = some b → b ≠ "" → "10.1.1.1" = b) ∧
      (((some "10.1.1.1" : Option String) = none ∨
          (some "10.1.1.1" : Option String) = some "") →
        (∀ ip, netT9w.heur = some ip → "10.1.1.1" = ip) ∧
        (netT9w.heur = none → "10.1.1.1" = "unknown"))) :=
  tcp_src_fallback_chain netT9w "203.0.113.5" 443 (some "10.1.1.1") "10.1.1.1"
    "203.0.113.5" 443 "timeout" 0 rfl

theorem probingTasks_append (l₁ l₂ : List WStatus) :
    probingTasks (l₁ ++ l₂) = probingTasks l₁ ++ probingTasks l₂ := by
  induction l₁ with
  | nil => rfl
  | cons w rest ih => cases w <;> simp [probingTasks, ih]

theorem failedTasks_append (l₁ l₂ : List WStatus) :
    failedTasks (l₁ ++ l₂) = failedTasks l₁ ++ failedTasks l₂ := by
  induction l₁ with
  | nil => rfl
  | cons w rest ih => cases w <;> simp [failedTasks, ih]

theorem probingTasks_replicate_running (n : Nat) :
    probingTasks (List.replicate n WStatus.running) = [] := by
  induction n with
  | zero => rfl
  | succ n ih => rw [List.replicate_succ]; exact ih

theorem failedTasks_replicate_running (n : Nat) :
    failedTasks (List.replicate n WStatus.running) = [] := by
  induction n with
  | zero => rfl
  | succ n ih => rw [List.replicate_succ]; exact ih

theorem probingTasks_nil_of_exited (ws : List WStatus)
    (h : ∀ w ∈ ws, w = WStatus.exited) : probingTasks ws = [] := by
  induction ws with
  | nil => rfl
  | cons w rest ih =>
    have hw : w = WStatus.exited := h w (List.mem_cons_self _ _)
    subst hw
    exact ih fun w hw => h w (List.mem_cons_of_mem _ hw)

theorem failedTasks_nil_of_exited (ws : List WStatus)
    (h : ∀ w ∈ ws, w = WStatus.exited) : failedTasks ws = [] := by
  induction ws with
  | nil => rfl
  | cons w rest ih =>
    have hw : w = WStatus.exited := h w (List.mem_cons_self _ _)
    subst hw
    exact ih fun w hw => h w (List.mem_cons_of_mem _ hw)

theorem step_workers_length (net : Net) (b : Option String) {s s' : ExecState}
    (h : Step net b s s') : s'.workers.length = s.workers.length := by
  cases h <;> simp

theorem reach_workers_length (net : Net) (b : Option String) {s s' : ExecState}
    (h : Reachable net b s s') : s'.workers.length = s.workers.length := by
  induction h with
  | refl => rfl
  | tail hpref hstep ih => rw [step_workers_length net b hstep, ih]

theorem execInv_init (net : Net) (b : Option String) (tasks : List PTask) (c : Int) :
    ExecInv net b tasks (initState tasks c) := by
  refine ⟨⟨[], ?_, rfl, by simp⟩, ?_⟩
  · show tasks.Perm (tasks ++ probingTasks (List.replicate _ WStatus.running) ++
      failedTasks (List.replicate _ WStatus.running) ++ [])
    rw [probingTasks_replicate_running, failedTasks_replicate_running]
    simp
  · rintro ⟨w, hw, rfl⟩
    exact absurd (List.eq_of_mem_replicate hw) (by decide)

theorem execInv_step (net : Net) (b : Option String) (tasks : List PTask)
    {s s' : ExecState} (hinv : ExecInv net b tasks s) (hstep : Step net b s s') :
    ExecInv net b tasks s' := by
  obtain ⟨⟨rts, hms, hres, hok⟩, hdq⟩ := hinv
  cases hstep with
  | claimTask t rest l₁ l₂ res =>
    refine ⟨⟨rts, hms.trans ?_, hres, hok⟩, ?_⟩
    · simp only [probingTasks_append, failedTasks_append, probingTasks, failedTasks]
      rw [List.perm_iff_count]
      intro a
      simp [List.count_append, List.count_cons]
      omega
    · rintro ⟨w, hw, rfl⟩
      have hold : (t :: rest : List PTask) = [] := by
        apply hdq
        refine ⟨WStatus.exited, ?_, rfl⟩
        simp only [List.mem_append, List.mem_cons] at hw ⊢
        rcases hw with hw | hw | hw
        · exact Or.inl hw
        · exact absurd hw.symm (by simp)
        · exact Or.inr (Or.inr hw)
      exact absurd hold (by simp)
  | finishOk t r q l₁ l₂ res hpr =>
    refine ⟨⟨rts ++ [t], hms.trans ?_, ?_, ?_⟩, ?_⟩
    · simp only [probingTasks_append, failedTasks_append, probingTasks, failedTasks]
      rw [List.perm_iff_count]
      intro a
      simp [List.count_append, List.count_cons]
      omega
    · show res ++ [r] = (rts ++ [t]).map (okRec net b)
      rw [List.map_append, ← hres]
      simp [okRec, hpr]
    · intro t' ht'
      rcases List.mem_append.mp ht' with ht' | ht'
      · exact hok t' ht'
      · rcases List.mem_singleton.mp ht' with rfl
        exact ⟨r, hpr⟩
    · rintro ⟨w, hw, rfl⟩
      apply hdq
      refine ⟨WStatus.exited, ?_, rfl⟩
      simp only [List.mem_append, List.mem_cons] at hw ⊢
      rcases hw with hw | hw | hw
      · exact Or.inl hw
      · exact absurd hw.symm (by simp)
      · exact Or.inr (Or.inr hw)
  | finishErr t e q l₁ l₂ res hpr =>
    refine ⟨⟨rts, hms.trans ?_, hres, hok⟩, ?_⟩
    · simp only [probingTasks_append, failedTasks_append, probingTasks, failedTasks]
      rw [List.perm_iff_count]
      intro a
      simp [List.count_append, List.count_cons]
      omega
    · rintro ⟨w, hw, rfl⟩
      apply hdq
      refine ⟨WStatus.exited, ?_, rfl⟩
      simp only [List.mem_append, List.mem_cons] at hw ⊢
      rcases hw with hw | hw | hw
      · exact Or.inl hw
      · exact absurd hw.symm (by simp)
      · exact Or.inr (Or.inr hw)
  | workerExit l₁ l₂ res =>
    refine ⟨⟨rts, hms.trans ?_, hres, hok⟩, fun _ => rfl⟩
    simp only [probingTasks_append, failedTasks_append, probingTasks, failedTasks]
    exact List.Perm.refl _

theorem terminal_results (net : Net) (b : Option String) (tasks : List PTask) (c : Int)
    (hc : 1 ≤ c) (s : ExecState)
    (hr : Reachable net b (initState tasks c) s) (hd : allDone s) :
    s.results.Perm (tasks.map (okRec net b)) ∧ ∀ t ∈ tasks, probeOk net b t := by
  have hinv : ExecInv net b tasks s := by
    clear hd
    induction hr with
    | refl => exact execInv_init net b tasks c
    | tail hpref hstep ih => exact execInv_step net b tasks ih hstep
  obtain ⟨⟨rts, hms, hres, hok⟩, hdq⟩ := hinv
  have hlen : s.workers.length = numWorkers c tasks := by
    rw [reach_workers_length net b hr]
    simp [initState]
  have hpos : 1 ≤ numWorkers c tasks := by
    unfold numWorkers
    have h1 : (1 : Int) ≤ min c (max 1 (tasks.length : Int)) :=
      le_min hc (le_max_left _ _)
    omega
  obtain ⟨w, hwmem⟩ : ∃ w, w ∈ s.workers := by
    cases hws : s.workers with
    | nil => rw [hws] at hlen; simp at hlen; omega
    | cons w rest => exact ⟨w, List.mem_cons_self _ _⟩
  have hq : s.queue = [] := hdq ⟨w, hwmem, hd w hwmem⟩
  have hprob : probingTasks s.workers = [] := probingTasks_nil_of_exited _ hd
  have hfail : failedTasks s.workers = [] := failedTasks_nil_of_exited _ hd
  rw [hq, hprob, hfail] at hms
  simp only [List.nil_append, List.append_nil] at hms
  constructor
  · rw [hres]
    exact (hms.map (okRec net b)).symm
  · intro t ht
    exact hok t (hms.mem_iff.mp ht)

/-- C1: for every finite task sequence given to run_checks with positive
concurrency, whenever the executor reaches a state where every worker has
returned cleanly (the state in which asyncio.gather, and hence run_checks,
returns), the collected results are exactly one record per submitted task
(a permutation of the tasks' records: none dropped, none probed twice), and
every submitted task's probe has completed with its record. -/
theorem run_checks_yields_one_record_per_task (net : Net) (bind_ip : Option String)
    (tasks : List PTask) (c : Int) (hc : 1 ≤ c) (s : ExecState)
    (hreach : Reachable net bind_ip (initState tasks c) s) (hdone : allDone s) :
    s.results.Perm (tasks.map (okRec net bind_ip)) ∧ ∀ t ∈ tasks, probeOk net bind_ip t :=
  terminal_results net bind_ip tasks c hc s hreach hdone

/-- C1 witness: the one-task run under netTriv, executed claim-finish-exit,
ends with exactly that task's record. -/
theorem run_checks_yields_one_record_per_task_witness :
    ([rec0] : List ResultRec).Perm ([t0].map (okRec netTriv none)) ∧
      ∀ t ∈ [t0], probeOk netTriv none t := by
  have hpr : worker_probe netTriv none t0 = Except.ok rec0 := rfl
  have s1 : Step netTriv none ⟨[t0], [WStatus.running], []⟩
      ⟨[], [WStatus.probing t0], []⟩ := Step.claimTask t0 [] [] [] []
  have s2 : Step netTriv none ⟨[], [WStatus.probing t0], []⟩
      ⟨[], [WStatus.running], [rec0]⟩ := Step.finishOk t0 rec0 [] [] [] [] hpr
  have s3 : Step netTriv none ⟨[], [WStatus.running], [rec0]⟩
      ⟨[], [WStatus.exited], [rec0]⟩ := Step.workerExit [] [] [rec0]
  have hreach : Reachable netTriv none (initState [t0] 1) sFin :=
    Relation.ReflTransGen.tail
      (Relation.ReflTransGen.tail (Relation.ReflTransGen.tail Relation.ReflTransGen.refl s1) s2) s3
  have hdone : allDone sFin := by
    intro w hw
    simpa [sFin] using hw
  exact run_checks_yields_one_record_per_task netTriv none [t0] 1 (by norm_num) sFin
    hreach hdone

/-- C2, evidence of the code bug: when name resolution fails, resolve_host
falls back to the raw hostname and udp_probe_sync's un-guarded sock.connect
raises; the exception escapes the prober and the worker, the worker
coroutine dies without appending a record, and asyncio.gather re-raises the
exception out of run_checks instead of capturing it in a Result Record. -/
theorem udp_probe_error_escapes :
    udp_probe_sync (netBad.udp "badhost.invalid" 53) "badhost.invalid" 53 none =
      Except.error gerr ∧
    worker_probe netBad none tBad = Except.error gerr ∧
    Reachable netBad none (run_checks_init ["badhost.invalid"] [53] Proto.udp 200) sBad ∧
    gatherExc sBad = some gerr ∧
    sBad.results = [] ∧
    ¬ allDone sBad := by
  refine ⟨rfl, rfl, ?_, rfl, rfl, ?_⟩
  · have s1 : Step netBad none ⟨[tBad], [WStatus.running], []⟩
        ⟨[], [WStatus.probing tBad], []⟩ := Step.claimTask tBad [] [] [] []
    have s2 : Step netBad none ⟨[], [WStatus.probing tBad], []⟩
        ⟨[], [WStatus.failed tBad gerr], []⟩ := Step.finishErr tBad gerr [] [] [] [] rfl
    exact Relation.ReflTransGen.tail
      (Relation.ReflTransGen.tail Relation.ReflTransGen.refl s1) s2
  · intro h
    have hall := h (WStatus.failed tBad gerr) (by simp [sBad])
    exact absurd hall (by simp)

/-- C8 counterexample: a configuration with zero hosts is not rejected:
make_tasks is empty, run_checks still starts one worker, that worker exits
at once, and the run completes normally, returning an empty result
collection instead of aborting with an error before probing. -/
theorem empty_config_completes_counterexample :
    make_tasks [] [80] Proto.tcp = [] ∧
    Reachable netTriv none (run_checks_init [] [80] Proto.tcp 200) sEmpty ∧
    allDone sEmpty ∧ sEmpty.results = [] ∧ gatherExc sEmpty = none := by
  refine ⟨rfl, ?_, ?_, rfl, rfl⟩
  · exact Relation.ReflTransGen.tail Relation.ReflTransGen.refl
      (Step.workerExit [] [] [])
  · intro w hw
    simpa [sEmpty] using hw

/-- C8 amended: zero hosts or zero ports are not detected as configuration
errors: the task list is empty, run_checks starts one worker (for positive
concurrency), and every completed run returns the empty result collection
normally rather than aborting before probing. -/
theorem empty_config_behavior (hosts : List String) (ports : List Int) (proto : Proto)
    (c : Int) (net : Net) (bind_ip : Option String)
    (hempty : hosts = [] ∨ ports = []) (hc : 1 ≤ c) :
    make_tasks hosts ports proto = [] ∧
    numWorkers c (make_tasks hosts ports proto) = 1 ∧
    (∀ s, Reachable net bind_ip (run_checks_init hosts ports proto c) s →
      allDone s → s.results = []) := by
  have hmt : make_tasks hosts ports proto = [] := by
    rw [make_tasks_eq_bind]
    rcases hempty with rfl | rfl
    · rfl
    · simp
  refine ⟨hmt, ?_, ?_⟩
  · rw [hmt]
    unfold numWorkers
    rw [show (max (1 : Int) ((([] : List PTask).length : Int))) = 1 from by decide,
      min_eq_right hc]
    rfl
  · intro s hr hd
    have hterm := terminal_results net bind_ip (make_tasks hosts ports proto) c hc s hr hd
    obtain ⟨hperm, -⟩ := hterm
    rw [hmt, List.map_nil] at hperm
    exact hperm.eq_nil

/-- C8 amended witness: the zero-hosts configuration with concurrency one. -/
theorem empty_config_behavior_witness :
    make_tasks [] [80] Proto.tcp = [] ∧
    numWorkers 1 (make_tasks [] [80] Proto.tcp) = 1 ∧
    (∀ s, Reachable netTriv none (run_checks_init [] [80] Proto.tcp 1) s →
      allDone s → s.results = []) :=
  empty_config_behavior [] [80] Proto.tcp 1 netTriv none (Or.inl rfl) (by norm_num)
